import Mathlib

/-!
Verification of the dkg-phd-thesis GCP pipeline against its specification.

Shallow embedding of:
  * `src/gcp/shared/utils/bq_schemas.py` — type mapper (`_unwrap_optional`,
    `_PYTHON_TO_BQ`), schema generator (`generate_schema`, `SYSTEM_FIELDS`);
  * `src/gcp/shared/utils/gcp_utils.py` — proto descriptor builder
    (`_build_proto_descriptor`), row encoder loop and commit writer
    (`insert_survey_response`);
  * `src/gcp/cloud_run_functions/run_intake_confirmation/main.py` — the
    confirmation coordinator (`is_already_processed`,
    `update_processed_flag`, `intake_confirmation_handler`).

External collaborators (BigQuery clients, Twilio, protobuf runtime,
`datetime.date.fromisoformat`) are modelled at their call boundary as
oracles recorded in an environment record; the control flow of the
repository's own functions is translated line by line.
-/

namespace DKG

/-! ## Python type annotations (as `bq_schemas._unwrap_optional` sees them)

`typing.get_origin` distinguishes the PEP-604 union `X | None`
(origin `types.UnionType`) from `typing.Optional[X]` / `typing.Union[X, None]`
(origin `typing.Union`); on the deployed Python (< 3.14) these are distinct
objects. A bare primitive annotation has origin `None`.
-/

inductive PyPrim
  | str
  | int
  | float
  | bool
  | noneT
deriving DecidableEq, Repr

inductive PyAnn
  /-- a bare type object such as `str` -/
  | prim : PyPrim → PyAnn
  /-- union written `X | Y`: `get_origin` returns `types.UnionType` -/
  | unionPipe : List PyAnn → PyAnn
  /-- union written `typing.Union[X, Y]` or `typing.Optional[X]`: `get_origin` returns `typing.Union` -/
  | unionTyping : List PyAnn → PyAnn

/-- Test `a is type(None)` used in the list comprehension of `_unwrap_optional`. -/
def isNoneType : PyAnn → Bool
  | .prim .noneT => true
  | _ => false

/-- Embedding of `bq_schemas._unwrap_optional`: the guard is `origin is types.UnionType`,
so only the `X | None` form is inspected; any other annotation — including
`typing.Optional[X]`, whose origin is `typing.Union` — is returned unchanged. -/
def unwrap_optional (annot : PyAnn) : PyAnn :=
  match annot with
  | .unionPipe args =>
    let non_none := args.filter (fun a => !isNoneType a)
    match non_none with
    | [a] => a
    | _ => annot
  | _ => annot

/-- Embedding of `bq_schemas._PYTHON_TO_BQ.get`: a dict keyed by the four bare type
objects; any other annotation (unions, `NoneType`) has no entry. -/
def pythonToBq : PyAnn → Option String
  | .prim .str => some "STRING"
  | .prim .int => some "INTEGER"
  | .prim .float => some "FLOAT"
  | .prim .bool => some "BOOLEAN"
  | _ => none

/-! ## BigQuery schema fields and `generate_schema` -/

/-- Lower-case an ASCII character (the `A`–`Z` range), as Python's
`str.lower` does on identifier-like column names. -/
def lowerChar (c : Char) : Char :=
  if 65 ≤ c.toNat ∧ c.toNat ≤ 90 then Char.ofNat (c.toNat + 32) else c

/-- Lower-case a column name character by character, modelling
`name.lower()` in `generate_schema` (column names are Python identifiers,
hence ASCII). -/
def lowerStr (s : String) : String :=
  ⟨s.data.map lowerChar⟩

structure SchemaField where
  name : String
  field_type : String
  mode : String
  description : String
deriving DecidableEq, Repr

/-- Embedding of `bq_schemas.SYSTEM_FIELDS`: the two pipeline-owned columns appended
after the model-derived columns. -/
def SYSTEM_FIELDS : List SchemaField :=
  [ ⟨"_created_at", "TIMESTAMP", "REQUIRED",
      "UTC timestamp when this row was inserted"⟩,
    ⟨"_processed", "BOOLEAN", "REQUIRED",
      "Whether downstream processing has completed"⟩ ]

/-- One entry of a Pydantic model's `model_fields`: the annotation,
the result of `field_info.is_required()`, and the optional description. -/
structure FieldInfo where
  annot : PyAnn
  required : Bool
  description : Option String

/-- A Pydantic model class, reduced to its ordered `model_fields` items. -/
structure PydanticModel where
  model_fields : List (String × FieldInfo)

/-- The per-field loop body of `bq_schemas.generate_schema`: unwrap the
annotation, look the result up in `_PYTHON_TO_BQ`, raise `ValueError` on a
missing entry, otherwise emit a lower-cased `SchemaField` whose mode follows
`field_info.is_required()`. -/
def genModelFields : List (String × FieldInfo) → Except String (List SchemaField)
  | [] => Except.ok []
  | (name, field_info) :: rest =>
    let python_type := unwrap_optional field_info.annot
    match pythonToBq python_type with
    | none =>
      Except.error ("No BigQuery type mapping for field " ++ name)
    | some bq_type =>
      let mode := if field_info.required then "REQUIRED" else "NULLABLE"
      let description := field_info.description.getD ""
      match genModelFields rest with
      | Except.error e => Except.error e
      | Except.ok restFields =>
        Except.ok (⟨lowerStr name, bq_type, mode, description⟩ :: restFields)

/-- Embedding of `bq_schemas.generate_schema`: model-derived columns in declaration
order, then `system_fields` appended verbatim (`fields.extend`). -/
def generate_schema (model : PydanticModel)
    (system_fields : Option (List SchemaField)) :
    Except String (List SchemaField) :=
  match genModelFields model.model_fields with
  | Except.error e => Except.error e
  | Except.ok fields => Except.ok (fields ++ system_fields.getD [])

/-! ## Proto descriptor builder (`gcp_utils._build_proto_descriptor`) -/

/-- Wire types of `descriptor_pb2.FieldDescriptorProto` used by the builder. -/
inductive ProtoType
  | tString
  | tInt64
  | tDouble
  | tBool
deriving DecidableEq, Repr

/-- Labels of `descriptor_pb2.FieldDescriptorProto`. -/
inductive ProtoLabel
  | optional
  | required
  | repeated
deriving DecidableEq, Repr

/-- One numbered field of the generated `DescriptorProto`. -/
structure ProtoField where
  name : String
  number : Nat
  label : ProtoLabel
  type_ : ProtoType
deriving DecidableEq, Repr

/-- The `BQ_TO_PROTO` dict inside `_build_proto_descriptor`. -/
def bqToProto : String → Option ProtoType
  | "STRING" => some ProtoType.tString
  | "INTEGER" => some ProtoType.tInt64
  | "INT64" => some ProtoType.tInt64
  | "FLOAT" => some ProtoType.tDouble
  | "FLOAT64" => some ProtoType.tDouble
  | "BOOLEAN" => some ProtoType.tBool
  | "BOOL" => some ProtoType.tBool
  | "TIMESTAMP" => some ProtoType.tString
  | _ => none

/-- The `for i, field in enumerate(schema, start=1)` loop of
`_build_proto_descriptor`: each schema column becomes a numbered field,
unconditionally labelled `LABEL_OPTIONAL`; a missing type mapping raises
`ValueError`. -/
def buildProtoFields (i : Nat) :
    List SchemaField → Except String (List ProtoField)
  | [] => Except.ok []
  | field :: rest =>
    match bqToProto field.field_type with
    | none =>
      Except.error ("No proto type mapping for BigQuery field " ++ field.name)
    | some proto_type =>
      match buildProtoFields (i + 1) rest with
      | Except.error e => Except.error e
      | Except.ok restFields =>
        Except.ok (⟨field.name, i, ProtoLabel.optional, proto_type⟩ :: restFields)

/-- Embedding of `gcp_utils._build_proto_descriptor`, reduced to the field list of the
returned `DescriptorProto` (its only content besides the constant name). -/
def build_proto_descriptor (schema : List SchemaField) :
    Except String (List ProtoField) :=
  buildProtoFields 1 schema

/-! ## Row encoder loop (`gcp_utils.insert_survey_response`, lines 192–207)

The per-field loop sets `msg.<name>` from `row.get(field.name)` when the
value is not `None`. The per-field `try` catches only
`(AttributeError, ValueError)`, logging a warning and moving on; any
other class raised by `setattr` — notably the `TypeError` the protobuf
runtime raises for a value of the wrong Python type — escapes the
per-field guard, aborts the remainder of the row encode, and is caught
only by the function's outer `except Exception` (the insert then returns
`False`). The proto message starts with every field unset. The row is a
mapping `column name → value-or-null`, and the outcome of `setattr` on a
(field name, value) pair is an oracle, since it is decided by the
protobuf runtime. -/

/-- Outcome of one `setattr(msg, field.name, value)` call, classified by
how the per-field `except (AttributeError, ValueError)` guard treats the
raised class: no exception; a caught class (`AttributeError` or
`ValueError`, e.g. an out-of-range or invalid value); or an uncaught
class (e.g. the `TypeError` the protobuf runtime raises for a
wrong-typed value). -/
inductive SetattrOutcome
  | ok
  | caughtError
  | uncaughtError
deriving DecidableEq, Repr

/-- State threaded through the encoder loop: the proto message (fields
set so far) and the warning log of skipped field names. -/
structure EncodeState (α : Type) where
  msg : String → Option α
  warnings : List String

/-- One iteration of the encoder loop for a single schema column:
a null row value leaves the message untouched; a successful `setattr`
sets the field; a caught failure appends a warning; an uncaught failure
propagates, ending the loop. -/
def encodeStep {α : Type} (row : String → Option α)
    (setattr : String → α → SetattrOutcome)
    (acc : EncodeState α) (field : SchemaField) :
    Except Unit (EncodeState α) :=
  match row field.name with
  | none => Except.ok acc
  | some value =>
    match setattr field.name value with
    | SetattrOutcome.ok =>
      Except.ok
        ⟨fun n => if n = field.name then some value else acc.msg n,
          acc.warnings⟩
    | SetattrOutcome.caughtError =>
      Except.ok ⟨acc.msg, acc.warnings ++ [field.name]⟩
    | SetattrOutcome.uncaughtError => Except.error ()

/-- Iteration of the loop over the schema columns in order, stopping at
the first uncaught `setattr` failure. -/
def encodeFields {α : Type} (row : String → Option α)
    (setattr : String → α → SetattrOutcome) :
    List SchemaField → EncodeState α → Except Unit (EncodeState α)
  | [], acc => Except.ok acc
  | field :: rest, acc =>
    match encodeStep row setattr acc field with
    | Except.error e => Except.error e
    | Except.ok next => encodeFields row setattr rest next

/-- The whole encoder loop, starting from the freshly constructed
(all-unset) message: returns the final message state, or an error when
an uncaught per-field exception aborts the row. -/
def encodeRow {α : Type} (schema : List SchemaField)
    (row : String → Option α) (setattr : String → α → SetattrOutcome) :
    Except Unit (EncodeState α) :=
  encodeFields row setattr schema ⟨fun _ => none, []⟩

/-! ## Commit writer (`gcp_utils.insert_survey_response`, transport part)

Oracles for the external Storage Write API client: whether
`create_write_stream` succeeds, whether `append_rows` itself raises, the
embedded `response.error.code` of each yielded append acknowledgment, and
whether `finalize_write_stream` succeeds. Any raised exception is caught
by the function's outer `except` and turned into `False`. -/

structure CommitEnv where
  streamOpens : Bool
  appendRaises : Bool
  appendCodes : List Nat
  finalizeOk : Bool
deriving DecidableEq, Repr

/-- Observable outcome of one `insert_survey_response` call: the returned
boolean, whether a write stream was created, and how many times
`finalize_write_stream` was invoked. -/
structure CommitTrace where
  success : Bool
  channelOpened : Bool
  finalizeCalls : Nat
deriving DecidableEq, Repr

/-- The `for response in responses` loop: `return False` on the first
acknowledgment whose `error.code != 0` (modelled as `none`), fall through
otherwise. -/
def processAppendResponses : List Nat → Option Unit
  | [] => some ()
  | code :: rest => if code ≠ 0 then none else processAppendResponses rest

/-- Embedding of `gcp_utils.insert_survey_response`, transport control flow: open the
stream, append, scan acknowledgments, and only then finalize. A non-zero
acknowledgment code returns `False` before the finalize call is reached;
a finalize exception is caught by the outer handler and returns `False`
after the single finalize attempt. -/
def insert_survey_response (env : CommitEnv) : CommitTrace :=
  if env.streamOpens = false then
    ⟨false, false, 0⟩
  else if env.appendRaises then
    ⟨false, true, 0⟩
  else
    match processAppendResponses env.appendCodes with
    | none => ⟨false, true, 0⟩
    | some _ =>
      if env.finalizeOk then ⟨true, true, 1⟩ else ⟨false, true, 1⟩

/-! ## Confirmation coordinator (`run_intake_confirmation/main.py`) -/

/-- Embedding of `pubsub_utils.IntakeProcessedMessage`: the Pydantic model the handler
validates the decoded payload against. All four fields are plain strings —
`selected_date` is documented as ISO format but not format-validated. -/
structure IntakeProcessedMessage where
  response_id : String
  phone : String
  selected_date : String
  timezone : String
deriving DecidableEq, Repr

/-- A `datetime.date` value, as produced by `date.fromisoformat`. -/
structure PyDate where
  year : Nat
  month : Nat
  day : Nat
deriving DecidableEq, Repr

/-- Embedding of `main.is_already_processed`, applied to the rows returned by the
`SELECT _processed … LIMIT 1` query (each row reduced to its `_processed`
value): an empty result logs a warning and returns `False` (row may still
be invisible); otherwise `bool(rows[0]._processed)`. -/
def is_already_processed (rows : List Bool) : Bool :=
  match rows with
  | [] => false
  | b :: _ => b

/-- Embedding of `main.update_processed_flag`, applied to the outcome of the guarded
`UPDATE … WHERE _processed = FALSE` query: `Except.error` is the query
raising (caught, logged, `False`); `Except.ok n` carries
`result.num_dml_affected_rows` (`none` when the attribute is `None`,
defaulted to 0 by `or 0`). Exactly 1 and exactly 0 affected rows both
return `True`; anything else returns `False`. -/
def update_processed_flag (queryOutcome : Except Unit (Option Nat)) : Bool :=
  match queryOutcome with
  | Except.error _ => false
  | Except.ok n =>
    let affected := n.getD 0
    if affected = 1 then true
    else if affected = 0 then true
    else false

/-- Combined outcome of `decode_pubsub_message` and
`IntakeProcessedMessage.model_validate` on the inbound CloudEvent:
`malformed` is `decode_pubsub_message` returning `None` (bad envelope
structure, bad base64, bad JSON — all caught inside it); `invalid` is
`model_validate` raising (caught by the handler); `valid` carries the
validated message. -/
inductive DecodeOutcome
  | malformed
  | invalid (raw : String)
  | valid (msg : IntakeProcessedMessage)
deriving DecidableEq, Repr

/-- The external collaborators of one handler invocation, fixed up front:
the decode/validation outcome, the flag-read query (which can itself
raise), `date.fromisoformat` (raises `ValueError` on a non-ISO string,
modelled as `none`), the `send_sms` result, and the guarded-update query
outcome. -/
structure HandlerEnv where
  decodeOutcome : DecodeOutcome
  flagQuery : Except Unit (List Bool)
  fromisoformat : String → Option PyDate
  smsResult : Bool
  updateQuery : Except Unit (Option Nat)

/-- Terminal states of a normally returning invocation. -/
inductive Terminal
  /-- decode failed: acknowledge and drop -/
  | ackMalformed
  /-- validation failed: acknowledge and drop -/
  | ackInvalid
  /-- flag already true: skip the SMS -/
  | skipped
  /-- SMS sent and flag update reported success -/
  | marked
  /-- SMS sent but flag update failed: warn and return anyway -/
  | degraded
deriving DecidableEq, Repr

/-- Exceptions that escape the handler (the invocation fails and the
message is redelivered). -/
inductive HandlerError
  /-- the flag-read query raised and nothing catches it -/
  | queryError
  /-- raised `ValueError` from `date.fromisoformat`, which nothing catches -/
  | dateParseError
  /-- the explicit `RuntimeError` raised when `send_sms` returns `False` -/
  | smsFailed
deriving DecidableEq, Repr

instance {ε α : Type} [DecidableEq ε] [DecidableEq α] :
    DecidableEq (Except ε α) := fun a b =>
  match a, b with
  | Except.ok x, Except.ok y =>
    if h : x = y then isTrue (by rw [h]) else isFalse (by simp [h])
  | Except.error e, Except.error e' =>
    if h : e = e' then isTrue (by rw [h]) else isFalse (by simp [h])
  | Except.ok _, Except.error _ => isFalse (by simp)
  | Except.error _, Except.ok _ => isFalse (by simp)

/-- Observable trace of one invocation: how it ended, and which external
calls were made. -/
structure HandlerTrace where
  result : Except HandlerError Terminal
  smsCalled : Bool
  flagReadCalled : Bool
  updateCalled : Bool
deriving DecidableEq, Repr

/-- Embedding of `main.intake_confirmation_handler`, step by step: decode (return on
`None`), validate (return on exception), idempotency check via
`is_already_processed` (its query exception propagates), parse
`selected_date` with `date.fromisoformat` (exception propagates), send
the SMS (composed by the pure, total `format_sms_body`, not observable in
the trace), raise `RuntimeError` if the send failed, else run
`update_processed_flag` and return normally whether or not it succeeded. -/
def intake_confirmation_handler (env : HandlerEnv) : HandlerTrace :=
  match env.decodeOutcome with
  | DecodeOutcome.malformed =>
    ⟨Except.ok Terminal.ackMalformed, false, false, false⟩
  | DecodeOutcome.invalid _ =>
    ⟨Except.ok Terminal.ackInvalid, false, false, false⟩
  | DecodeOutcome.valid msg =>
    match env.flagQuery with
    | Except.error _ =>
      ⟨Except.error HandlerError.queryError, false, true, false⟩
    | Except.ok rows =>
      if is_already_processed rows then
        ⟨Except.ok Terminal.skipped, false, true, false⟩
      else
        match env.fromisoformat msg.selected_date with
        | none =>
          ⟨Except.error HandlerError.dateParseError, false, true, false⟩
        | some _ =>
          if env.smsResult then
            if update_processed_flag env.updateQuery then
              ⟨Except.ok Terminal.marked, true, true, true⟩
            else
              ⟨Except.ok Terminal.degraded, true, true, true⟩
          else
            ⟨Except.error HandlerError.smsFailed, true, true, false⟩


/-! ## Supporting lemmas -/

/-- Generating the model-derived columns never changes the field count. -/
theorem genModelFields_length (l : List (String × FieldInfo))
    (fs : List SchemaField) (h : genModelFields l = Except.ok fs) :
    fs.length = l.length := by
  induction l generalizing fs with
  | nil =>
    simp only [genModelFields] at h
    cases h
    rfl
  | cons p rest ih =>
    obtain ⟨name, field_info⟩ := p
    simp only [genModelFields] at h
    cases hb : pythonToBq (unwrap_optional field_info.annot) with
    | none => rw [hb] at h; cases h
    | some bq_type =>
      rw [hb] at h
      cases hr : genModelFields rest with
      | error e => rw [hr] at h; cases h
      | ok restFields =>
        rw [hr] at h
        cases h
        simp [ih restFields hr]

/-- The append-acknowledgment scan falls through exactly when every
embedded error code is zero. -/
theorem processAppendResponses_eq_some_iff (codes : List Nat) :
    processAppendResponses codes = some () ↔ ∀ c ∈ codes, c = 0 := by
  induction codes with
  | nil => simp [processAppendResponses]
  | cons c rest ih =>
    by_cases hc : c = 0
    · subst hc
      simpa [processAppendResponses] using ih
    · simp [processAppendResponses, hc]

/-- Descriptor construction: on success, field names mirror the schema
1:1 in order, and every generated field is labelled optional. -/
theorem buildProtoFields_shape (schema : List SchemaField) (i : Nat)
    (fields : List ProtoField)
    (h : buildProtoFields i schema = Except.ok fields) :
    fields.map ProtoField.name = schema.map SchemaField.name ∧
    ∀ f ∈ fields, f.label = ProtoLabel.optional := by
  induction schema generalizing i fields with
  | nil =>
    simp only [buildProtoFields] at h
    cases h
    simp
  | cons field rest ih =>
    simp only [buildProtoFields] at h
    cases hb : bqToProto field.field_type with
    | none => rw [hb] at h; cases h
    | some proto_type =>
      rw [hb] at h
      cases hr : buildProtoFields (i + 1) rest with
      | error e => rw [hr] at h; cases h
      | ok restFields =>
        rw [hr] at h
        cases h
        obtain ⟨hnames, hlabels⟩ := ih (i + 1) restFields hr
        constructor
        · simp [hnames]
        · intro f hf
          rcases List.mem_cons.mp hf with hf | hf
          · rw [hf]
          · exact hlabels f hf

/-! ## Claim C6 — unwrapping of optional/union annotations -/

/-- Concrete failing input for the type mapper: `typing.Optional[str]`,
i.e. the `typing.Union[str, None]` form. -/
def optionalStrTyping : PyAnn :=
  PyAnn.unionTyping [PyAnn.prim PyPrim.str, PyAnn.prim PyPrim.noneT]

/-- A one-field model whose `consent` field is annotated
`typing.Optional[str]`. -/
def optionalStrModel : PydanticModel :=
  ⟨[("consent", ⟨optionalStrTyping, false, none⟩)]⟩

/-- C6: the claim (and the function docstring) says both the
`typing.Optional`/`typing.Union` form and the `X | None` form are
unwrapped before the column-type lookup. The code only tests
`origin is types.UnionType`, so `typing.Optional[str]` is returned
unchanged, its `_PYTHON_TO_BQ` lookup finds nothing, and schema
generation raises — while `str | None` is unwrapped as the claim states.
This theorem evaluates the embedded code at the failing input. -/
theorem unwrap_optional_misses_typing_union :
    unwrap_optional optionalStrTyping = optionalStrTyping ∧
    pythonToBq (unwrap_optional optionalStrTyping) = none ∧
    unwrap_optional
        (PyAnn.unionPipe [PyAnn.prim PyPrim.str, PyAnn.prim PyPrim.noneT]) =
      PyAnn.prim PyPrim.str ∧
    generate_schema optionalStrModel (some SYSTEM_FIELDS) =
      Except.error "No BigQuery type mapping for field consent" :=
  ⟨rfl, rfl, rfl, rfl⟩

/-! ## Claim C8 — schema column count and system columns -/

/-- C8: for every record definition, when generation succeeds with the
two system columns supplied, the schema has exactly
definition-field-count + 2 columns, the two system columns are the last
two entries, and both have mode REQUIRED. -/
theorem generate_schema_count_and_system_columns (model : PydanticModel)
    (s : List SchemaField)
    (h : generate_schema model (some SYSTEM_FIELDS) = Except.ok s) :
    s.length = model.model_fields.length + 2 ∧
    (∃ pre : List SchemaField, pre.length = model.model_fields.length ∧
      s = pre ++ SYSTEM_FIELDS) ∧
    (∀ f ∈ SYSTEM_FIELDS, f.mode = "REQUIRED") := by
  unfold generate_schema at h
  cases hg : genModelFields model.model_fields with
  | error e => rw [hg] at h; cases h
  | ok fields =>
    rw [hg] at h
    cases h
    have hlen := genModelFields_length _ _ hg
    refine ⟨?_, ⟨fields, hlen, by simp⟩, by decide⟩
    simp [hlen, SYSTEM_FIELDS]

/-- A concrete three-field record definition (shaped like the head of
`WebServicePayload`: two required identifiers, one nullable field). -/
def sampleModel : PydanticModel :=
  ⟨[("response_id", ⟨PyAnn.prim PyPrim.str, true, some "Qualtrics response ID"⟩),
    ("survey_id", ⟨PyAnn.prim PyPrim.str, true, none⟩),
    ("age", ⟨PyAnn.unionPipe [PyAnn.prim PyPrim.int, PyAnn.prim PyPrim.noneT],
      false, none⟩)]⟩

/-- Expected generated schema for `sampleModel`. -/
def sampleSchema : List SchemaField :=
  [⟨"response_id", "STRING", "REQUIRED", "Qualtrics response ID"⟩,
   ⟨"survey_id", "STRING", "REQUIRED", ""⟩,
   ⟨"age", "INTEGER", "NULLABLE", ""⟩,
   ⟨"_created_at", "TIMESTAMP", "REQUIRED",
     "UTC timestamp when this row was inserted"⟩,
   ⟨"_processed", "BOOLEAN", "REQUIRED",
     "Whether downstream processing has completed"⟩]

/-- Witness for C8 at the concrete `sampleModel`. -/
theorem generate_schema_count_witness :
    generate_schema sampleModel (some SYSTEM_FIELDS) = Except.ok sampleSchema ∧
    sampleSchema.length = sampleModel.model_fields.length + 2 := by
  have hgen : generate_schema sampleModel (some SYSTEM_FIELDS) =
      Except.ok sampleSchema := by decide
  exact ⟨hgen,
    (generate_schema_count_and_system_columns sampleModel sampleSchema hgen).1⟩

/-! ## Claim C9 — guarded update with more than one affected row -/

/-- C9: a guarded update reporting more than one affected row makes
`update_processed_flag` return False — the same value as an
infrastructure failure — without raising (the embedded function is
total); exactly 0 or exactly 1 affected rows, and only those, return
True. -/
theorem update_processed_flag_outcomes (n : Nat) (h : 2 ≤ n) :
    update_processed_flag (Except.ok (some n)) = false ∧
    update_processed_flag (Except.ok (some n)) =
      update_processed_flag (Except.error ()) ∧
    (∀ m : Nat, update_processed_flag (Except.ok (some m)) = true ↔
      m = 0 ∨ m = 1) := by
  have h1 : n ≠ 1 := by omega
  have h0 : n ≠ 0 := by omega
  refine ⟨by simp [update_processed_flag, h0, h1],
    by simp [update_processed_flag, h0, h1], ?_⟩
  intro m
  by_cases hm1 : m = 1
  · subst hm1; simp [update_processed_flag]
  · by_cases hm0 : m = 0
    · subst hm0; simp [update_processed_flag]
    · simp [update_processed_flag, hm0, hm1]

/-- Witness for C9 at 2 affected rows. -/
theorem update_processed_flag_outcomes_witness :
    2 ≤ 2 ∧ update_processed_flag (Except.ok (some 2)) = false :=
  ⟨by decide, (update_processed_flag_outcomes 2 (by decide)).1⟩

/-! ## Claim C10 — descriptor fields are all LABEL_OPTIONAL -/

/-- C10: every field of a successfully generated record descriptor is
labelled LABEL_OPTIONAL, and the descriptor mirrors the schema's columns
1:1 by name, so columns whose schema mode is REQUIRED (including both
system columns) are optional on the wire; under proto2 semantics a
message with any subset of these fields unset therefore serializes. -/
theorem build_proto_descriptor_all_optional
    (schema : List SchemaField) (fields : List ProtoField)
    (h : build_proto_descriptor schema = Except.ok fields) :
    fields.map ProtoField.name = schema.map SchemaField.name ∧
    ∀ f ∈ fields, f.label = ProtoLabel.optional :=
  buildProtoFields_shape schema 1 fields h

/-- Expected descriptor fields for the two REQUIRED system columns. -/
def systemProtoFields : List ProtoField :=
  [⟨"_created_at", 1, ProtoLabel.optional, ProtoType.tString⟩,
   ⟨"_processed", 2, ProtoLabel.optional, ProtoType.tBool⟩]

/-- Witness for C10 on the two system columns, whose schema mode is
REQUIRED. -/
theorem build_proto_descriptor_all_optional_witness :
    build_proto_descriptor SYSTEM_FIELDS = Except.ok systemProtoFields ∧
    (∀ f ∈ systemProtoFields, f.label = ProtoLabel.optional) ∧
    (∀ f ∈ SYSTEM_FIELDS, f.mode = "REQUIRED") :=
  ⟨rfl,
   (build_proto_descriptor_all_optional SYSTEM_FIELDS systemProtoFields rfl).2,
   by decide⟩

/-! ## Claim C5 — finalize behaviour of the commit writer -/

/-- C5 counterexample: an execution that opens the write channel and then
receives an append acknowledgment with embedded error code 7 declares
failure and never finalizes the channel — refuting
finalize-exactly-once-regardless-of-outcome at this concrete input. -/
theorem insert_survey_response_skips_finalize_on_append_error :
    (insert_survey_response ⟨true, false, [7], true⟩).channelOpened = true ∧
    (insert_survey_response ⟨true, false, [7], true⟩).success = false ∧
    (insert_survey_response ⟨true, false, [7], true⟩).finalizeCalls = 0 := by
  decide

/-- C5 amended: in every execution that opens the write channel, finalize
is called at most once, and exactly once precisely when the append call
returned acknowledgments all carrying error code 0; when an
acknowledgment carries a non-zero code (or the append raises) the commit
is declared a failure and the channel is never finalized. -/
theorem insert_survey_response_finalize_iff (env : CommitEnv)
    (h : (insert_survey_response env).channelOpened = true) :
    (insert_survey_response env).finalizeCalls ≤ 1 ∧
    ((insert_survey_response env).finalizeCalls = 1 ↔
      env.appendRaises = false ∧ ∀ c ∈ env.appendCodes, c = 0) := by
  obtain ⟨so, ar, codes, fo⟩ := env
  cases so
  · simp [insert_survey_response] at h
  · cases ar
    · cases hp : processAppendResponses codes with
      | none =>
        have hno : ¬ ∀ c ∈ codes, c = 0 := by
          rw [← processAppendResponses_eq_some_iff]
          simp [hp]
        simp [insert_survey_response, hp, hno]
      | some u =>
        cases u
        have hyes : ∀ c ∈ codes, c = 0 :=
          (processAppendResponses_eq_some_iff codes).1 hp
        cases fo <;>
          · simp [insert_survey_response, hp]
            exact hyes
    · simp [insert_survey_response]

/-- Witness for the amended C5 at an all-zero acknowledgment. -/
theorem insert_survey_response_finalize_witness :
    (insert_survey_response ⟨true, false, [0], true⟩).channelOpened = true ∧
    (insert_survey_response ⟨true, false, [0], true⟩).finalizeCalls = 1 :=
  ⟨by decide,
   ((insert_survey_response_finalize_iff ⟨true, false, [0], true⟩
      (by decide)).2).mpr ⟨rfl, by decide⟩⟩

/-! ## Claims C1–C4 — the confirmation coordinator -/

/-- A validated message whose `selected_date` is a proper ISO date. -/
def sampleOkMsg : IntakeProcessedMessage :=
  ⟨"R_abc123", "+15551234567", "2025-06-01", "US/Central"⟩

/-- A validated message whose `selected_date` is not an ISO date (the
Pydantic model checks only that it is a string). -/
def sampleBadDateMsg : IntakeProcessedMessage :=
  ⟨"R_abc123", "+15551234567", "not-a-date", "US/Central"⟩

/-- An ISO-correct `date.fromisoformat` oracle for the sample messages:
accepts exactly the string "2025-06-01". -/
def sampleIso : String → Option PyDate :=
  fun sdate => if sdate = "2025-06-01" then some ⟨2025, 6, 1⟩ else none

/-- Environment refuting C1 as stated: valid message, absent row (the
flag read returns no rows), but a `selected_date` that
`date.fromisoformat` rejects. -/
def badDateEnv : HandlerEnv :=
  ⟨DecodeOutcome.valid sampleBadDateMsg, Except.ok [], sampleIso, true,
    Except.ok (some 1)⟩

/-- C1 counterexample: at `badDateEnv` the flag read returns absent
(treated as not-yet-processed), yet the notification sender is not
invoked — the invocation raises out of `date.fromisoformat` first — so
"sender invoked iff the flag read returns false or absent" is false as
stated. -/
theorem handler_sms_iff_flag_cex :
    ¬ ((intake_confirmation_handler badDateEnv).smsCalled = true ↔
      ∃ rows, badDateEnv.flagQuery = Except.ok rows ∧
        is_already_processed rows = false) := by
  intro hiff
  have h := hiff.mpr ⟨[], rfl, rfl⟩
  have h2 : (intake_confirmation_handler badDateEnv).smsCalled = false := rfl
  rw [h2] at h
  cases h

/-- C1 amended: for every decoded and validated confirmation message,
the notification sender is invoked iff the flag read returns false or
absent AND `date.fromisoformat` accepts the message's date string (an
unparseable date makes the invocation raise before the sender is
reached); when the read returns true, the invocation ends in SKIPPED
without any call to the sender. -/
theorem handler_sms_iff_flag_and_date (env : HandlerEnv)
    (msg : IntakeProcessedMessage)
    (hdec : env.decodeOutcome = DecodeOutcome.valid msg) :
    ((intake_confirmation_handler env).smsCalled = true ↔
      ((∃ rows, env.flagQuery = Except.ok rows ∧
          is_already_processed rows = false) ∧
        (env.fromisoformat msg.selected_date).isSome = true)) ∧
    (∀ rows, env.flagQuery = Except.ok rows →
      is_already_processed rows = true →
      (intake_confirmation_handler env).result = Except.ok Terminal.skipped ∧
      (intake_confirmation_handler env).smsCalled = false) := by
  obtain ⟨dec, fq, iso, sms, upd⟩ := env
  simp only at hdec
  subst hdec
  cases fq with
  | error e =>
    refine ⟨⟨fun h => ?_, ?_⟩, fun rows hrow => by cases hrow⟩
    · simp [intake_confirmation_handler] at h
    · rintro ⟨⟨rows, hrow, _⟩, _⟩
      cases hrow
  | ok rows =>
    cases hproc : is_already_processed rows with
    | true =>
      refine ⟨⟨fun h => ?_, ?_⟩, fun rows' hrow' => ?_⟩
      · simp [intake_confirmation_handler, hproc] at h
      · rintro ⟨⟨rows', hrow', hproc'⟩, _⟩
        obtain rfl : rows = rows' := by cases hrow'; rfl
        rw [hproc] at hproc'
        cases hproc'
      · obtain rfl : rows = rows' := by cases hrow'; rfl
        intro _
        simp [intake_confirmation_handler, hproc]
    | false =>
      cases hiso : iso msg.selected_date with
      | none =>
        refine ⟨⟨fun h => ?_, ?_⟩, fun rows' hrow' hproc' => ?_⟩
        · simp [intake_confirmation_handler, hproc, hiso] at h
        · rintro ⟨_, hs⟩
          simp only at hs
          rw [hiso] at hs
          cases hs
        · obtain rfl : rows = rows' := by cases hrow'; rfl
          rw [hproc] at hproc'
          cases hproc'
      | some d =>
        refine ⟨⟨fun _ => ⟨⟨rows, rfl, hproc⟩, by simp only; rw [hiso]; rfl⟩,
          fun _ => ?_⟩, fun rows' hrow' hproc' => ?_⟩
        · cases sms <;> cases hupd : update_processed_flag upd <;>
            simp [intake_confirmation_handler, hproc, hiso, hupd]
        · obtain rfl : rows = rows' := by cases hrow'; rfl
          rw [hproc] at hproc'
          cases hproc'

/-- Environment where everything succeeds on a fresh (not yet processed)
row. -/
def freshRowEnv : HandlerEnv :=
  ⟨DecodeOutcome.valid sampleOkMsg, Except.ok [false], sampleIso, true,
    Except.ok (some 1)⟩

/-- Environment where the row's completion flag is already true. -/
def processedRowEnv : HandlerEnv :=
  ⟨DecodeOutcome.valid sampleOkMsg, Except.ok [true], sampleIso, true,
    Except.ok (some 0)⟩

/-- Witness for the amended C1: the sender is invoked on the fresh row
and skipped on the already-processed row. -/
theorem handler_sms_iff_flag_and_date_witness :
    (intake_confirmation_handler freshRowEnv).smsCalled = true ∧
    (intake_confirmation_handler processedRowEnv).result =
      Except.ok Terminal.skipped := by
  constructor
  · exact ((handler_sms_iff_flag_and_date freshRowEnv sampleOkMsg rfl).1).mpr
      ⟨⟨[false], rfl, rfl⟩, rfl⟩
  · exact ((handler_sms_iff_flag_and_date processedRowEnv sampleOkMsg rfl).2
      [true] rfl rfl).1

/-! ## Claim C2 — sender failure raises and skips the flag update -/

/-- C2: whenever the notification sender was invoked and reported
failure, the coordinator raises (the `RuntimeError` that fails the
invocation and triggers redelivery) and the guarded flag update is never
issued. -/
theorem handler_raises_on_sms_failure (env : HandlerEnv)
    (hcalled : (intake_confirmation_handler env).smsCalled = true)
    (hfail : env.smsResult = false) :
    (intake_confirmation_handler env).result =
      Except.error HandlerError.smsFailed ∧
    (intake_confirmation_handler env).updateCalled = false := by
  obtain ⟨dec, fq, iso, sms, upd⟩ := env
  simp only at hfail
  subst hfail
  cases dec with
  | malformed => simp [intake_confirmation_handler] at hcalled
  | invalid raw => simp [intake_confirmation_handler] at hcalled
  | valid msg =>
    cases fq with
    | error e => simp [intake_confirmation_handler] at hcalled
    | ok rows =>
      cases hproc : is_already_processed rows with
      | true => simp [intake_confirmation_handler, hproc] at hcalled
      | false =>
        cases hiso : iso msg.selected_date with
        | none => simp [intake_confirmation_handler, hproc, hiso] at hcalled
        | some d => simp [intake_confirmation_handler, hproc, hiso]

/-- Environment where the sender is reached and reports failure. -/
def smsFailEnv : HandlerEnv :=
  ⟨DecodeOutcome.valid sampleOkMsg, Except.ok [false], sampleIso, false,
    Except.ok (some 1)⟩

/-- Witness for C2 at `smsFailEnv`. -/
theorem handler_raises_on_sms_failure_witness :
    (intake_confirmation_handler smsFailEnv).result =
      Except.error HandlerError.smsFailed ∧
    (intake_confirmation_handler smsFailEnv).updateCalled = false :=
  handler_raises_on_sms_failure smsFailEnv rfl rfl

/-! ## Claim C3 — degraded completion when the flag update errors -/

/-- C3: when the notification was sent successfully and the guarded flag
update then fails with an infrastructure error (the query raises, not a
zero-rows-matched outcome), the coordinator does not raise: the
invocation ends normally in the DEGRADED state, so the message is
acknowledged and not redelivered. -/
theorem handler_degraded_on_update_error (env : HandlerEnv)
    (hcalled : (intake_confirmation_handler env).smsCalled = true)
    (hsent : env.smsResult = true)
    (hupd : env.updateQuery = Except.error ()) :
    (intake_confirmation_handler env).result = Except.ok Terminal.degraded := by
  obtain ⟨dec, fq, iso, sms, upd⟩ := env
  simp only at hsent hupd
  subst hsent
  subst hupd
  cases dec with
  | malformed => simp [intake_confirmation_handler] at hcalled
  | invalid raw => simp [intake_confirmation_handler] at hcalled
  | valid msg =>
    cases fq with
    | error e => simp [intake_confirmation_handler] at hcalled
    | ok rows =>
      cases hproc : is_already_processed rows with
      | true => simp [intake_confirmation_handler, hproc] at hcalled
      | false =>
        cases hiso : iso msg.selected_date with
        | none => simp [intake_confirmation_handler, hproc, hiso] at hcalled
        | some d =>
          simp [intake_confirmation_handler, hproc, hiso,
            update_processed_flag]

/-- Environment where the SMS succeeds and the guarded update raises. -/
def updateFailEnv : HandlerEnv :=
  ⟨DecodeOutcome.valid sampleOkMsg, Except.ok [false], sampleIso, true,
    Except.error ()⟩

/-- Witness for C3 at `updateFailEnv`. -/
theorem handler_degraded_on_update_error_witness :
    (intake_confirmation_handler updateFailEnv).result =
      Except.ok Terminal.degraded :=
  handler_degraded_on_update_error updateFailEnv rfl rfl rfl

/-! ## Claim C4 — malformed or invalid messages are acknowledged -/

/-- C4: a malformed envelope (undecodable structure, bad base64/JSON) or
a message failing Confirmation Message validation makes the handler
return normally — acknowledging the message so it is never retried — and
neither the notification sender nor the flag store (read or guarded
update) is invoked. -/
theorem handler_acks_and_drops_malformed (env : HandlerEnv)
    (h : env.decodeOutcome = DecodeOutcome.malformed ∨
      ∃ raw, env.decodeOutcome = DecodeOutcome.invalid raw) :
    (∃ t, (intake_confirmation_handler env).result = Except.ok t) ∧
    (intake_confirmation_handler env).smsCalled = false ∧
    (intake_confirmation_handler env).flagReadCalled = false ∧
    (intake_confirmation_handler env).updateCalled = false := by
  rcases h with h | ⟨raw, h⟩
  · refine ⟨⟨Terminal.ackMalformed, ?_⟩, ?_, ?_, ?_⟩ <;>
      simp [intake_confirmation_handler, h]
  · refine ⟨⟨Terminal.ackInvalid, ?_⟩, ?_, ?_, ?_⟩ <;>
      simp [intake_confirmation_handler, h]

/-- Environment delivering an undecodable envelope. -/
def malformedEnv : HandlerEnv :=
  ⟨DecodeOutcome.malformed, Except.ok [], sampleIso, false, Except.ok none⟩

/-- Witness for C4 at `malformedEnv`. -/
theorem handler_acks_and_drops_malformed_witness :
    (∃ t, (intake_confirmation_handler malformedEnv).result = Except.ok t) ∧
    (intake_confirmation_handler malformedEnv).smsCalled = false :=
  ⟨(handler_acks_and_drops_malformed malformedEnv (Or.inl rfl)).1,
   (handler_acks_and_drops_malformed malformedEnv (Or.inl rfl)).2.1⟩

/-! ## Claim C7 — per-field behaviour of the row encoder -/

/-- Condition under which the loop sets the column `name`: the row value
is non-null and `setattr` succeeds on it. -/
def setsField {α : Type} (row : String → Option α)
    (setattr : String → α → SetattrOutcome) (name : String) : Bool :=
  match row name with
  | none => false
  | some v =>
    match setattr name v with
    | SetattrOutcome.ok => true
    | _ => false

/-- Membership of a name among the columns of a schema is unaffected by
a head column of a different name. -/
theorem exists_name_cons_iff (f : SchemaField) (rest : List SchemaField)
    (name : String) (hname : ¬ f.name = name) :
    (∃ g ∈ f :: rest, g.name = name) ↔ ∃ g ∈ rest, g.name = name := by
  constructor
  · rintro ⟨g, hg, hgname⟩
    rcases List.mem_cons.mp hg with rfl | hg'
    · exact absurd hgname hname
    · exact ⟨g, hg', hgname⟩
  · rintro ⟨g, hg, hgname⟩
    exact ⟨g, List.mem_cons_of_mem _ hg, hgname⟩

/-- Unfolding of `setsField`: it is true exactly when the row value is
some `v` on which `setattr` succeeds. -/
theorem setsField_eq_true_iff {α : Type} (row : String → Option α)
    (setattr : String → α → SetattrOutcome) (name : String) :
    setsField row setattr name = true ↔
      ∃ v, row name = some v ∧ setattr name v = SetattrOutcome.ok := by
  unfold setsField
  cases hrow : row name with
  | none => simp
  | some v =>
    simp only
    cases hatt : setattr name v with
    | ok => simp [hatt]
    | caughtError => simp [hatt]
    | uncaughtError => simp [hatt]

/-- The encoder loop aborts exactly when some schema column has a
non-null row value on which `setattr` raises an uncaught class. -/
theorem encodeFields_error_iff {α : Type} (row : String → Option α)
    (setattr : String → α → SetattrOutcome) :
    ∀ (schema : List SchemaField) (acc : EncodeState α),
      encodeFields row setattr schema acc = Except.error () ↔
      ∃ f ∈ schema, ∃ v, row f.name = some v ∧
        setattr f.name v = SetattrOutcome.uncaughtError := by
  intro schema
  induction schema with
  | nil =>
    intro acc
    simp [encodeFields]
  | cons f rest ih =>
    intro acc
    cases hrow : row f.name with
    | none =>
      have hstep : encodeFields row setattr (f :: rest) acc =
          encodeFields row setattr rest acc := by
        simp [encodeFields, encodeStep, hrow]
      rw [hstep, ih]
      constructor
      · rintro ⟨g, hg, hv⟩
        exact ⟨g, List.mem_cons_of_mem _ hg, hv⟩
      · rintro ⟨g, hg, v, hgv, hout⟩
        rcases List.mem_cons.mp hg with rfl | hg'
        · rw [hrow] at hgv
          cases hgv
        · exact ⟨g, hg', v, hgv, hout⟩
    | some v =>
      cases hout : setattr f.name v with
      | ok =>
        have hstep : encodeFields row setattr (f :: rest) acc =
            encodeFields row setattr rest
              ⟨fun n => if n = f.name then some v else acc.msg n,
                acc.warnings⟩ := by
          simp [encodeFields, encodeStep, hrow, hout]
        rw [hstep, ih]
        constructor
        · rintro ⟨g, hg, hv⟩
          exact ⟨g, List.mem_cons_of_mem _ hg, hv⟩
        · rintro ⟨g, hg, v', hgv, hout'⟩
          rcases List.mem_cons.mp hg with rfl | hg'
          · rw [hrow] at hgv
            cases hgv
            rw [hout] at hout'
            cases hout'
          · exact ⟨g, hg', v', hgv, hout'⟩
      | caughtError =>
        have hstep : encodeFields row setattr (f :: rest) acc =
            encodeFields row setattr rest
              ⟨acc.msg, acc.warnings ++ [f.name]⟩ := by
          simp [encodeFields, encodeStep, hrow, hout]
        rw [hstep, ih]
        constructor
        · rintro ⟨g, hg, hv⟩
          exact ⟨g, List.mem_cons_of_mem _ hg, hv⟩
        · rintro ⟨g, hg, v', hgv, hout'⟩
          rcases List.mem_cons.mp hg with rfl | hg'
          · rw [hrow] at hgv
            cases hgv
            rw [hout] at hout'
            cases hout'
          · exact ⟨g, hg', v', hgv, hout'⟩
      | uncaughtError =>
        have hstep : encodeFields row setattr (f :: rest) acc =
            Except.error () := by
          simp [encodeFields, encodeStep, hrow, hout]
        rw [hstep]
        constructor
        · intro _
          exact ⟨f, List.mem_cons_self f rest, v, hrow, hout⟩
        · intro _
          rfl

/-- Characterization of the message built by a successful encoder loop,
for an arbitrary starting state: a column ends up holding the row's
value iff some schema field carries its name and the row value is
non-null with a successful `setattr`; otherwise the starting state's
entry is untouched. -/
theorem encodeFields_msg {α : Type} (row : String → Option α)
    (setattr : String → α → SetattrOutcome) (name : String) :
    ∀ (schema : List SchemaField) (acc st : EncodeState α),
      encodeFields row setattr schema acc = Except.ok st →
      st.msg name =
        if (∃ f ∈ schema, f.name = name) ∧
            setsField row setattr name = true
        then row name else acc.msg name := by
  intro schema
  induction schema with
  | nil =>
    intro acc st h
    cases h
    simp
  | cons f rest ih =>
    intro acc st h
    cases hrow : row f.name with
    | none =>
      simp only [encodeFields, encodeStep, hrow] at h
      rw [ih acc st h]
      by_cases hname : f.name = name
      · subst hname
        have hset : ¬ setsField row setattr f.name = true := by
          intro hset
          obtain ⟨v, hv, _⟩ := (setsField_eq_true_iff row setattr f.name).mp hset
          rw [hrow] at hv
          cases hv
        rw [if_neg (fun hc => hset hc.2), if_neg (fun hc => hset hc.2)]
      · by_cases hset : setsField row setattr name = true
        · by_cases hrest : ∃ g ∈ rest, g.name = name
          · rw [if_pos ⟨hrest, hset⟩,
              if_pos ⟨(exists_name_cons_iff f rest name hname).mpr hrest,
                hset⟩]
          · rw [if_neg (fun hc => hrest hc.1),
              if_neg (fun hc =>
                hrest ((exists_name_cons_iff f rest name hname).mp hc.1))]
        · rw [if_neg (fun hc => hset hc.2), if_neg (fun hc => hset hc.2)]
    | some v =>
      cases hout : setattr f.name v with
      | uncaughtError =>
        simp [encodeFields, encodeStep, hrow, hout] at h
      | ok =>
        simp only [encodeFields, encodeStep, hrow, hout] at h
        rw [ih _ st h]
        by_cases hname : f.name = name
        · subst hname
          have hset : setsField row setattr f.name = true :=
            (setsField_eq_true_iff row setattr f.name).mpr ⟨v, hrow, hout⟩
          have hex : ∃ g ∈ f :: rest, g.name = f.name :=
            ⟨f, List.mem_cons_self f rest, rfl⟩
          by_cases hrest : ∃ g ∈ rest, g.name = f.name
          · rw [if_pos ⟨hrest, hset⟩, if_pos ⟨hex, hset⟩]
          · rw [if_neg (fun hc => hrest hc.1), if_pos ⟨hex, hset⟩]
            show (if f.name = f.name then some v else acc.msg f.name) =
              row f.name
            rw [if_pos rfl, hrow]
        · by_cases hset : setsField row setattr name = true
          · by_cases hrest : ∃ g ∈ rest, g.name = name
            · rw [if_pos ⟨hrest, hset⟩,
                if_pos ⟨(exists_name_cons_iff f rest name hname).mpr hrest,
                  hset⟩]
            · rw [if_neg (fun hc => hrest hc.1),
                if_neg (fun hc =>
                  hrest ((exists_name_cons_iff f rest name hname).mp hc.1))]
              show (if name = f.name then some v else acc.msg name) =
                acc.msg name
              rw [if_neg (fun hcontra => hname hcontra.symm)]
          · rw [if_neg (fun hc => hset hc.2), if_neg (fun hc => hset hc.2)]
            show (if name = f.name then some v else acc.msg name) =
              acc.msg name
            rw [if_neg (fun hcontra => hname hcontra.symm)]
      | caughtError =>
        simp only [encodeFields, encodeStep, hrow, hout] at h
        rw [ih _ st h]
        by_cases hname : f.name = name
        · subst hname
          have hset : ¬ setsField row setattr f.name = true := by
            intro hset
            obtain ⟨v', hv', hatt'⟩ :=
              (setsField_eq_true_iff row setattr f.name).mp hset
            rw [hrow] at hv'
            cases hv'
            rw [hout] at hatt'
            cases hatt'
          rw [if_neg (fun hc => hset hc.2), if_neg (fun hc => hset hc.2)]
        · by_cases hset : setsField row setattr name = true
          · by_cases hrest : ∃ g ∈ rest, g.name = name
            · rw [if_pos ⟨hrest, hset⟩,
                if_pos ⟨(exists_name_cons_iff f rest name hname).mpr hrest,
                  hset⟩]
            · rw [if_neg (fun hc => hrest hc.1),
                if_neg (fun hc =>
                  hrest ((exists_name_cons_iff f rest name hname).mp hc.1))]
          · rw [if_neg (fun hc => hset hc.2), if_neg (fun hc => hset hc.2)]

/-- Warnings already accumulated are preserved by a successful rest of
the loop. -/
theorem encodeFields_warnings_mono {α : Type} (row : String → Option α)
    (setattr : String → α → SetattrOutcome) (x : String) :
    ∀ (schema : List SchemaField) (acc st : EncodeState α),
      encodeFields row setattr schema acc = Except.ok st →
      x ∈ acc.warnings → x ∈ st.warnings := by
  intro schema
  induction schema with
  | nil =>
    intro acc st h hx
    cases h
    exact hx
  | cons f rest ih =>
    intro acc st h hx
    cases hrow : row f.name with
    | none =>
      simp only [encodeFields, encodeStep, hrow] at h
      exact ih acc st h hx
    | some v =>
      cases hout : setattr f.name v with
      | ok =>
        simp only [encodeFields, encodeStep, hrow, hout] at h
        exact ih _ st h hx
      | caughtError =>
        simp only [encodeFields, encodeStep, hrow, hout] at h
        exact ih _ st h (List.mem_append_left _ hx)
      | uncaughtError =>
        simp [encodeFields, encodeStep, hrow, hout] at h

/-- In a successful encode, a schema field whose row value is non-null
but fails `setattr` with a caught class gets its name recorded in the
warning log. -/
theorem encodeFields_warned {α : Type} (row : String → Option α)
    (setattr : String → α → SetattrOutcome) :
    ∀ (schema : List SchemaField) (acc st : EncodeState α)
      (f : SchemaField),
      encodeFields row setattr schema acc = Except.ok st →
      f ∈ schema → ∀ v, row f.name = some v →
      setattr f.name v = SetattrOutcome.caughtError →
      f.name ∈ st.warnings := by
  intro schema
  induction schema with
  | nil =>
    intro acc st f _ hf
    cases hf
  | cons g rest ih =>
    intro acc st f h hf v hrowv hout
    rcases List.mem_cons.mp hf with rfl | hf'
    · simp only [encodeFields, encodeStep, hrowv, hout] at h
      exact encodeFields_warnings_mono row setattr f.name rest _ st h
        (List.mem_append_right _ (List.mem_singleton.mpr rfl))
    · cases hrow : row g.name with
      | none =>
        simp only [encodeFields, encodeStep, hrow] at h
        exact ih acc st f h hf' v hrowv hout
      | some w =>
        cases hout' : setattr g.name w with
        | ok =>
          simp only [encodeFields, encodeStep, hrow, hout'] at h
          exact ih _ st f h hf' v hrowv hout
        | caughtError =>
          simp only [encodeFields, encodeStep, hrow, hout'] at h
          exact ih _ st f h hf' v hrowv hout
        | uncaughtError =>
          simp [encodeFields, encodeStep, hrow, hout'] at h

/-- Row whose every column value is the integer 7. -/
def allSevenRow : String → Option Nat := fun _ => some 7

/-- Oracle under which every `setattr` raises an uncaught class, as the
protobuf runtime does (`TypeError`) when the value has the wrong Python
type for the descriptor field. -/
def allUncaught : String → Nat → SetattrOutcome :=
  fun _ _ => SetattrOutcome.uncaughtError

/-- C7 counterexample: a single wrong-typed field — `setattr` raising a
class outside the per-field `except (AttributeError, ValueError)` guard,
as the protobuf runtime's `TypeError` is — aborts the whole-row encode
instead of being skipped with a warning, refuting "the whole-row encode
never aborts because of a per-field failure" at this concrete input. -/
theorem encodeRow_aborts_on_uncaught_error :
    encodeRow [⟨"pa1", "STRING", "NULLABLE", ""⟩] allSevenRow allUncaught =
      Except.error () := rfl

/-- C7 amended: the encoder sets a descriptor field iff the row's value
for that column is non-null and `setattr` accepts it; null-valued
columns are left unset (never set to a zero value); a field failing with
a caught class (AttributeError/ValueError) is skipped with a warning and
the row proceeds; but a field failing with an uncaught class (the
protobuf runtime's TypeError for a wrong-typed value) escapes the
per-field guard and aborts the whole-row encode — which happens exactly
when some column has a non-null, uncaught-failing value. -/
theorem encodeRow_field_behavior {α : Type} (schema : List SchemaField)
    (row : String → Option α) (setattr : String → α → SetattrOutcome) :
    (encodeRow schema row setattr = Except.error () ↔
      ∃ f ∈ schema, ∃ v, row f.name = some v ∧
        setattr f.name v = SetattrOutcome.uncaughtError) ∧
    ∀ st, encodeRow schema row setattr = Except.ok st →
      (∀ name v, st.msg name = some v ↔
        ((∃ f ∈ schema, f.name = name) ∧ row name = some v ∧
          setattr name v = SetattrOutcome.ok)) ∧
      (∀ name, row name = none → st.msg name = none) ∧
      (∀ f ∈ schema, ∀ v, row f.name = some v →
        setattr f.name v = SetattrOutcome.caughtError →
        f.name ∈ st.warnings) := by
  refine ⟨encodeFields_error_iff row setattr schema _, ?_⟩
  intro st hok
  refine ⟨?_, ?_, ?_⟩
  · intro name v
    rw [encodeFields_msg row setattr name schema _ st hok]
    by_cases hcond : (∃ f ∈ schema, f.name = name) ∧
        setsField row setattr name = true
    · rw [if_pos hcond]
      obtain ⟨hex, hset⟩ := hcond
      constructor
      · intro hrow2
        refine ⟨hex, hrow2, ?_⟩
        obtain ⟨v', hv', hatt'⟩ :=
          (setsField_eq_true_iff row setattr name).mp hset
        rw [hrow2] at hv'
        cases hv'
        exact hatt'
      · rintro ⟨_, hrow2, _⟩
        exact hrow2
    · rw [if_neg hcond]
      constructor
      · intro h
        exact Option.noConfusion h
      · rintro ⟨hex, hrow2, hatt⟩
        exact absurd ⟨hex,
          (setsField_eq_true_iff row setattr name).mpr ⟨v, hrow2, hatt⟩⟩ hcond
  · intro name hrow2
    rw [encodeFields_msg row setattr name schema _ st hok]
    have hcond : ¬ ((∃ f ∈ schema, f.name = name) ∧
        setsField row setattr name = true) := by
      rintro ⟨_, hset⟩
      obtain ⟨v', hv', _⟩ := (setsField_eq_true_iff row setattr name).mp hset
      rw [hrow2] at hv'
      cases hv'
    rw [if_neg hcond]
  · intro f hf v hrowv hout
    exact encodeFields_warned row setattr schema _ st f hok hf v hrowv hout

/-- Concrete three-column schema for the C7 witness. -/
def c7schema : List SchemaField :=
  [⟨"a", "STRING", "NULLABLE", ""⟩, ⟨"b", "STRING", "NULLABLE", ""⟩,
   ⟨"c", "STRING", "NULLABLE", ""⟩]

/-- Concrete row for the C7 witness: `a` and `c` non-null, `b` null. -/
def c7row : String → Option Nat :=
  fun n => if n = "a" then some 1 else if n = "c" then some 3 else none

/-- Concrete `setattr` oracle for the C7 witness: only the value of
column `c` fails, with a caught class. -/
def c7setattr : String → Nat → SetattrOutcome :=
  fun n _ =>
    if n = "c" then SetattrOutcome.caughtError else SetattrOutcome.ok

/-- Witness for the amended C7: with no uncaught failure the encode
succeeds; the non-null accepted column is set to the row's value, the
null column is left unset, and the caught-failing column is skipped with
a warning. -/
theorem encodeRow_field_behavior_witness :
    ∃ st, encodeRow c7schema c7row c7setattr = Except.ok st ∧
      st.msg "a" = some 1 ∧ st.msg "b" = none ∧ "c" ∈ st.warnings := by
  obtain ⟨habort, hsucc⟩ := encodeRow_field_behavior c7schema c7row c7setattr
  cases hres : encodeRow c7schema c7row c7setattr with
  | error e =>
    exfalso
    cases e
    obtain ⟨f, _hf, v, _hrowv, hatt⟩ := habort.mp hres
    revert hatt
    simp only [c7setattr]
    split <;> simp
  | ok st =>
    obtain ⟨hiff, hnull, hwarn⟩ := hsucc st hres
    refine ⟨st, rfl, ?_, ?_, ?_⟩
    · exact (hiff "a" 1).mpr
        ⟨⟨⟨"a", "STRING", "NULLABLE", ""⟩, by decide, rfl⟩, by decide,
          by decide⟩
    · exact hnull "b" (by decide)
    · exact hwarn ⟨"c", "STRING", "NULLABLE", ""⟩ (by decide) 3 (by decide)
        (by decide)

end DKG
